import Mathlib

/-!
Verification of the monitoring pipeline of the instagram-parser repository.

The Python sources are shallowly embedded: times are rationals (seconds on
the `datetime` axis, so that `_hours_between` divides by 3600 exactly as the
source does), view/like counters are integers, and the stateful repository
layer is modelled as explicit list-valued stores threaded through the
operations.  Every definition mirrors one function of the source tree; the
doc comment of each definition names the Python function it embeds.
-/

namespace InstagramParser

/-! ### Trend analysis (`app/services/trend_service.py`) -/

/-- Embeds `TrendConfig` (trend_service.py).  `max_post_age_hours` is an `int`
in the source; a rational carries it exactly. -/
structure TrendConfig where
  growth_threshold_percent : ℚ
  max_post_age_hours : ℚ
  min_snapshots : ℕ
deriving DecidableEq, Repr

/-- Embeds `SnapshotData` (trend_service.py).  `checked_at` is the datetime
of the observation, measured in seconds. -/
structure SnapshotData where
  views : ℤ
  checked_at : ℚ
deriving DecidableEq, Repr

/-- Embeds `PostTrendResult` (trend_service.py). -/
structure PostTrendResult where
  post_id : ℤ
  current_views : ℤ
  views_per_hour : ℚ
  avg_views_per_hour : ℚ
  growth_rate : ℚ
  is_trending : Bool
deriving DecidableEq, Repr

/-- Embeds `TrendService._hours_between`:
`(dt2 - dt1).total_seconds() / 3600`. -/
def hoursBetween (dt1 dt2 : ℚ) : ℚ :=
  (dt2 - dt1) / 3600

/-- Embeds `TrendService._empty_result`. -/
def emptyResult (post_id : ℤ) : PostTrendResult :=
  { post_id := post_id
    current_views := 0
    views_per_hour := 0
    avg_views_per_hour := 0
    growth_rate := 0
    is_trending := false }

/-- Embeds `TrendService._calculate_current_speed`.  The source reads
`snapshots[-1]` and `snapshots[-2]`, i.e. the first two entries of the
reversed list; the caller guarantees the list is non-empty (on `[]` the
source would raise `IndexError`; we return `0.0`, the value of its final
fallback, which no caller ever observes). -/
def calculateCurrentSpeed (snapshots : List SnapshotData) (post_age_hours : ℚ) : ℚ :=
  let primary : Option ℚ :=
    match snapshots.reverse with
    | curr :: prev :: _ =>
      let delta_views : ℤ := curr.views - prev.views
      let delta_hours : ℚ := hoursBetween prev.checked_at curr.checked_at
      if 0 < delta_hours ∧ 0 ≤ delta_views then
        some ((delta_views : ℚ) / delta_hours)
      else
        none
    | _ => none
  match primary with
  | some v => v
  | none =>
    match snapshots.reverse with
    | curr :: _ => if 0 < post_age_hours then (curr.views : ℚ) / post_age_hours else 0
    | [] => 0

/-- Embeds `TrendService._calculate_growth`. -/
def calculateGrowth (current avg : ℚ) : ℚ :=
  if avg ≤ 0 then 0 else ((current - avg) / avg) * 100

/-- Embeds `TrendService._is_trending`. -/
def isTrending (cfg : TrendConfig) (growth_rate post_age_hours : ℚ)
    (snapshots_count : ℕ) : Bool :=
  decide (cfg.growth_threshold_percent ≤ growth_rate)
    && decide (post_age_hours ≤ cfg.max_post_age_hours)
    && decide (cfg.min_snapshots ≤ snapshots_count)

/-- The sort performed by `analyze_post`:
`sorted(snapshots, key=lambda s: s.checked_at)` (a stable sort on the
observation time, which `List.insertionSort` with the non-strict key order
also is). -/
def sortSnapshots (snapshots : List SnapshotData) : List SnapshotData :=
  snapshots.insertionSort (fun a b => a.checked_at ≤ b.checked_at)

/-- The body of `TrendService.analyze_post` after the empty check and the
sort: `ss` is the time-sorted snapshot list (non-empty for every caller;
the `[]` branch replays `_empty_result`, which no caller observes). -/
def analyzeSorted (cfg : TrendConfig) (post_id : ℤ) (published_at : ℚ)
    (ss : List SnapshotData) (account_avg_speed : ℚ) : PostTrendResult :=
  match ss.reverse with
  | [] => emptyResult post_id
  | curr :: _ =>
    let post_age_hours := hoursBetween published_at curr.checked_at
    let views_per_hour := calculateCurrentSpeed ss post_age_hours
    let avg_speed := account_avg_speed
    let growth_rate := calculateGrowth views_per_hour avg_speed
    { post_id := post_id
      current_views := curr.views
      views_per_hour := views_per_hour
      avg_views_per_hour := avg_speed
      growth_rate := growth_rate
      is_trending := isTrending cfg growth_rate post_age_hours ss.length }

/-- Embeds `TrendService.analyze_post` (`account_avg_speed or 0` is the
identity on rationals, where the source's `None` cannot arise). -/
def analyzePost (cfg : TrendConfig) (post_id : ℤ) (published_at : ℚ)
    (snapshots : List SnapshotData) (account_avg_speed : ℚ) : PostTrendResult :=
  if snapshots.isEmpty then
    emptyResult post_id
  else
    analyzeSorted cfg post_id published_at (sortSnapshots snapshots) account_avg_speed

/-- The fallback estimate of `_calculate_current_speed`: latest views over
the hours elapsed since publish, `0` when no time has elapsed. -/
def fallbackSpeed (published_at : ℚ) (curr : SnapshotData) : ℚ :=
  if 0 < hoursBetween published_at curr.checked_at then
    (curr.views : ℚ) / hoursBetween published_at curr.checked_at
  else 0

/-! ### Shared fetcher contracts (`app/services/interfaces.py`) -/

/-- Embeds `ContentType` (interfaces.py). -/
inductive ContentType
  | reel
  | post
deriving DecidableEq, Repr

/-- Embeds the `FetchedPost` dataclass (interfaces.py).  `post_code` is an
`Option` because `ApifyFetcher._map_posts` can populate it with Python's
`None` (`item.get("shortCode")` with no default). -/
structure FetchedPost where
  post_code : Option String
  url : Option String
  views : ℤ
  likes : ℤ
  published_at : ℚ
  post_type : ContentType
deriving DecidableEq, Repr

/-! ### Alert persistence (`app/repositories/alert_repository.py`,
`app/services/monitor_service.py`) -/

/-- Embeds the `Alert` row (db/models.py) with the columns the orchestrator
writes. -/
structure AlertRec where
  user_id : String
  post_id : ℤ
  views : ℤ
  views_per_hour : ℚ
  avg_views_per_hour : ℚ
  growth_rate : ℚ
deriving DecidableEq, Repr

/-- The alerts table, in insertion order. -/
abbrev AlertStore := List AlertRec

/-- Embeds `AlertRepository.exists`: a row with this (user, post) pair is
present. -/
def alertExists (st : AlertStore) (user_id : String) (post_id : ℤ) : Bool :=
  st.any (fun a => decide (a.user_id = user_id) && decide (a.post_id = post_id))

/-- Embeds `AlertRepository.create`: inserts one new row. -/
def alertRepoCreate (st : AlertStore) (user_id : String) (post_id : ℤ)
    (views : ℤ) (views_per_hour avg_views_per_hour growth_rate : ℚ) : AlertStore :=
  st ++ [{ user_id := user_id, post_id := post_id, views := views,
           views_per_hour := views_per_hour, avg_views_per_hour := avg_views_per_hour,
           growth_rate := growth_rate }]

/-- Embeds `MonitorService._create_alerts_for_account_users`: for each
subscriber of the account, create the alert only when `exists` is false. -/
def createAlertsForAccountUsers (st : AlertStore) (users : List String)
    (tr : PostTrendResult) : AlertStore :=
  users.foldl
    (fun st user_id =>
      if alertExists st user_id tr.post_id then st
      else alertRepoCreate st user_id tr.post_id tr.current_views tr.views_per_hour
        tr.avg_views_per_hour tr.growth_rate)
    st

/-- Any number of passes in which the trending condition re-fires: each pass
hands `_create_alerts_for_account_users` its subscriber list and trend
result (the orchestrator is the sole writer of the alerts table). -/
def runAlertPasses (st : AlertStore) (passes : List (List String × PostTrendResult)) :
    AlertStore :=
  passes.foldl (fun st p => createAlertsForAccountUsers st p.1 p.2) st

/-- The claimed invariant: at most one row per (subscriber, content) pair. -/
def UniqueAlertPairs (st : AlertStore) : Prop :=
  st.Pairwise (fun a b => ¬(a.user_id = b.user_id ∧ a.post_id = b.post_id))

instance (st : AlertStore) : Decidable (UniqueAlertPairs st) := by
  unfold UniqueAlertPairs
  infer_instance

/-! ### Content persistence (`app/repositories/post_repository.py`,
`MonitorService._get_or_create_post`) -/

/-- Embeds the `InstagramPost` row (db/models.py) with the columns
`PostRepository.create` sets.  (`post_type` is a non-nullable column of the
model, but `PostRepository.create` neither accepts nor sets it.) -/
structure PostRec where
  id : ℤ
  account_id : ℤ
  post_code : String
  url : Option String
  published_at : ℚ
deriving DecidableEq, Repr

/-- The posts table, in insertion order. -/
abbrev PostStore := List PostRec

/-- Embeds `PostRepository.get_by_code`. -/
def getByCode (st : PostStore) (post_code : String) : Option PostRec :=
  st.find? (fun p => decide (p.post_code = post_code))

/-- The parameter names accepted by `PostRepository.create`
(post_repository.py line 18). -/
def postRepositoryCreateParams : List String :=
  ["account_id", "post_code", "url", "published_at"]

/-- The keyword arguments `MonitorService._get_or_create_post` passes to
`PostRepository.create` (monitor_service.py lines 103-109). -/
def getOrCreatePostKeywords : List String :=
  ["account_id", "post_code", "url", "published_at", "post_type"]

/-- Python call semantics: a keyword call succeeds only when every keyword
names a declared parameter; otherwise `TypeError` is raised before the
body runs. -/
def pythonKeywordsAccepted (params keywords : List String) : Bool :=
  keywords.all (fun k => params.contains k)

/-- The runtime errors the embedding distinguishes. -/
inductive PyError
  | typeError
  | nameError
deriving DecidableEq, Repr

/-- Embeds `MonitorService._get_or_create_post` composed with the repository:
look up by code; if present return the row unchanged, otherwise call
`PostRepository.create` with the keyword set of the call site.  The create
call only proceeds if Python accepts the keywords. -/
def getOrCreatePost (st : PostStore) (next_id account_id : ℤ) (fetched : FetchedPost)
    (code : String) : Except PyError (PostRec × PostStore) :=
  match getByCode st code with
  | some p => .ok (p, st)
  | none =>
    if pythonKeywordsAccepted postRepositoryCreateParams getOrCreatePostKeywords then
      let p : PostRec := { id := next_id, account_id := account_id, post_code := code,
                           url := fetched.url, published_at := fetched.published_at }
      .ok (p, st ++ [p])
    else
      .error .typeError

/-! ### Item mapping of the job-polling integrations
(`app/services/apify_fetcher.py` `_map_posts`,
`instagram_monitor.py` `_parse_apify_item`) -/

/-- The fields of one raw Apify dataset item that the two mappings read.
`none` models an absent key; timestamps are pre-parsed to seconds. -/
structure ApifyItem where
  idField : Option String
  shortCode : Option String
  url : Option String
  postUrl : Option String
  likesCount : Option ℤ
  videoViewCount : Option ℤ
  videoPlayCount : Option ℤ
  playsCount : Option ℤ
  timestamp : Option ℚ
  takenAt : Option ℚ
  hasError : Bool
  ownerUsername : Option String
  usernameField : Option String
deriving DecidableEq, Repr

/-- Python truthiness of an optional string (`None` and `""` are falsy). -/
def strTruthy : Option String → Bool
  | none => false
  | some s => !s.isEmpty

/-- Python `a or b` on optional strings: `a` when truthy, else `b`. -/
def pyOrStr (a b : Option String) : Option String :=
  if strTruthy a then a else b

/-- Python `a or b` where `a` is an optional number and `b` a number
(`None` and `0` are falsy). -/
def pyOrInt (a : Option ℤ) (b : ℤ) : ℤ :=
  match a with
  | some n => if n ≠ 0 then n else b
  | none => b

/-- Same for pre-parsed timestamps. -/
def pyOrTs (a : Option ℚ) (b : Option ℚ) : Option ℚ :=
  match a with
  | some t => if t ≠ 0 then some t else b
  | none => b

/-- Embeds the `Post` dataclass of instagram_monitor.py. -/
structure LegacyPost where
  post_id : String
  username : String
  url : String
  views : ℤ
  likes : ℤ
  timestamp : ℚ
deriving DecidableEq, Repr

/-- The view-count chain of `_parse_apify_item`:
`videoViewCount or videoPlayCount or playsCount or (likes * 10)`. -/
def legacyViewsChain (item : ApifyItem) (likes : ℤ) : ℤ :=
  pyOrInt item.videoViewCount
    (pyOrInt item.videoPlayCount
      (pyOrInt item.playsCount (likes * 10)))

/-- Embeds `_parse_apify_item` (instagram_monitor.py lines 124-170): drops
the item (returns `none`) when both `id` and `shortCode` are falsy,
otherwise builds the post; `now` stands for `datetime.utcnow()` in the
missing-timestamp branch. -/
def parseApifyItem (item : ApifyItem) (username : String) (now : ℚ) :
    Option LegacyPost :=
  let post_id := pyOrStr item.idField item.shortCode
  match post_id with
  | none => none
  | some pid =>
    if pid.isEmpty then none
    else
      let url0 := pyOrStr item.url item.postUrl
      let url :=
        match url0 with
        | some u => if u.isEmpty then "https://www.instagram.com/p/" ++ pid ++ "/" else u
        | none => "https://www.instagram.com/p/" ++ pid ++ "/"
      let likes0 := item.likesCount.getD 0
      let likes := if likes0 < 0 then 0 else likes0
      let views := max (legacyViewsChain item likes) 0
      let ts := (pyOrTs item.timestamp item.takenAt).getD now
      let owner := (pyOrStr item.ownerUsername item.usernameField).getD username
      let owner := if owner.isEmpty then username else owner
      some { post_id := pid, username := owner, url := url, views := views,
             likes := likes, timestamp := ts }

/-- Embeds the batch loop of `fetch_instagram_posts_apify` (lines 214-218):
each item is parsed, `None` results are skipped, the rest of the batch
proceeds. -/
def parseApifyBatch (items : List ApifyItem) (username : String) (now : ℚ) :
    List LegacyPost :=
  items.filterMap (fun item => parseApifyItem item username now)

/-- Embeds `ApifyFetcher._filter_apify_errors`: items carrying an `error`
key are skipped. -/
def filterApifyErrors (items : List ApifyItem) : List ApifyItem :=
  items.filter (fun item => !item.hasError)

/-- Embeds `ApifyFetcher._map_posts`: for `"reels"` the views come from
`videoViewCount` (default 0), otherwise from `likesCount` (default 0);
every surviving item is appended — there is no missing-code check.  A
missing timestamp would raise in the source (`fromisoformat(None)`); the
embedding uses `getD 0` there, which no theorem of this file relies on. -/
def mapPosts (items : List ApifyItem) (results_type : String) : List FetchedPost :=
  (filterApifyErrors items).map (fun item =>
    let post_type := if results_type = "reels" then ContentType.reel else ContentType.post
    let views : ℤ :=
      if results_type = "reels" then item.videoViewCount.getD 0
      else item.likesCount.getD 0
    { post_code := item.shortCode, url := item.url, views := views,
      likes := item.likesCount.getD 0, published_at := item.timestamp.getD 0,
      post_type := post_type })

/-! ### Fetcher fan-out and failure containment
(`apify_fetcher.py`, `scrape_creators_fetcher.py`, `lobstr_fetcher.py`) -/

/-- One account's fetch as the fetcher's control flow sees it: `none` when
the remote interaction raises, `some items` when it yields parsed posts. -/
structure AccountFetch where
  account : String
  result : Option (List FetchedPost)
deriving DecidableEq, Repr

/-- Embeds `ApifyFetcher.process_accounts`: the whole `for account in
accounts` loop sits inside a single `try`; the first raising fetch leaves
the loop (the handler logs and returns), so later accounts are never
reached.  Returns the callback invocations made. -/
def apifyProcessAccounts : List AccountFetch → List (String × List FetchedPost)
  | [] => []
  | a :: rest =>
    match a.result with
    | none => []
    | some items => (a.account, items) :: apifyProcessAccounts rest

/-- The accounts whose fetch `ApifyFetcher.process_accounts` starts at all. -/
def apifyAttempted : List AccountFetch → List String
  | [] => []
  | a :: rest =>
    match a.result with
    | none => [a.account]
    | some _ => a.account :: apifyAttempted rest

/-- Embeds `ScrapeCreatorsFetcher.process_usernames`: one `_fetch_one` task
per account, gathered with `return_exceptions=True`, so every account runs
to completion independently; `_fetch_one` invokes the callback only when it
accepted at least one post.  Returns the callback invocations made. -/
def scProcessAccounts (l : List AccountFetch) : List (String × List FetchedPost) :=
  l.filterMap (fun a =>
    match a.result with
    | some items => if items.isEmpty then none else some (a.account, items)
    | none => none)

/-- Every account is attempted by `process_usernames` (each has its own
gathered task). -/
def scAttempted (l : List AccountFetch) : List String :=
  l.map (fun a => a.account)

/-- Embeds the per-account dispatch of `LobstrFetcher.process_accounts`
(step 5): after a successful run, `_dispatch` runs per account under
`asyncio.gather(..., return_exceptions=True)`; it calls back only when the
filtered result list is non-empty.  `result = none` models a raising
dispatch. -/
def lobstrDispatchAll (l : List AccountFetch) : List (String × List FetchedPost) :=
  l.filterMap (fun a =>
    match a.result with
    | some posts => if posts.isEmpty then none else some (a.account, posts)
    | none => none)

/-! ### Cursor pagination (`scrape_creators_fetcher.py` `_fetch_one`) -/

/-- The fields of one raw ScrapeCreators media object that
`_media_to_fetched_post` reads (`_parse_items` unwraps each response item's
`media` sub-dict first); timestamps pre-parsed to seconds. -/
structure ScMedia where
  code : Option String
  shortcode : Option String
  ig_play_count : Option ℤ
  play_count : Option ℤ
  like_count : Option ℤ
  taken_at : Option ℚ
  media_type : Option ℤ
  product_type : Option String
deriving DecidableEq, Repr

/-- Embeds `_media_to_fetched_post` (scrape_creators_fetcher.py lines
123-165).  `code = media.get("code") or media.get("shortcode") or ""`; a
falsy code returns `None` at line 138 before anything else runs.  For a
coded item, lines 140-155 build url, views, likes, publish time and the
reel flag — all pure, none observable — and line 156 then evaluates
`ContentType.REEL` / `ContentType.POST`; but `ContentType` is neither
imported nor defined in this module (line 41 imports only `FetchedPost`
and `InstagramFetcherInterface`), so every coded item raises `NameError`
and no `FetchedPost` is ever produced. -/
def mediaToFetchedPost (media : ScMedia) : Except PyError (Option FetchedPost) :=
  if strTruthy (pyOrStr media.code media.shortcode) = false then
    .ok none
  else
    .error .nameError

/-- Embeds `_parse_items`: each media object is converted in order,
`None` results are skipped, and the first exception propagates (the loop
body is not wrapped in any handler). -/
def parseItems : List ScMedia → Except PyError (List FetchedPost)
  | [] => .ok []
  | m :: ms =>
    match mediaToFetchedPost m with
    | .error e => .error e
    | .ok none => parseItems ms
    | .ok (some p) =>
      match parseItems ms with
      | .error e => .error e
      | .ok ps => .ok (p :: ps)

/-- One response of `GET /v1/instagram/user/reels`: `items` are the raw
media objects of the page in page order. -/
structure ReelsPage where
  items : List ScMedia
  more_available : Bool
  next_max_id : Option String
deriving DecidableEq, Repr

/-- Embeds the inner `for post in posts` loop of `_fetch_one` over the
parsed posts of a page: accept posts until the first one whose publish
time is strictly older than the cutoff; that post sets `stop_pagination`
and leaves the loop.  Returns the accepted posts of the page and the
`stop_pagination` flag. -/
def scanPage (cutoff : ℚ) : List FetchedPost → List FetchedPost × Bool
  | [] => ([], false)
  | p :: ps =>
    if p.published_at < cutoff then ([], true)
    else
      let r := scanPage cutoff ps
      (p :: r.1, r.2)

/-- Embeds the `while True` page loop of `_fetch_one` over the transport's
successive page responses (`pages.head?` is the response to the next
request): parse the page's items — an exception there escapes `_fetch_one`,
whose only `try` wraps the HTTP call — then scan the parsed posts; if
`stop_pagination`, stop; else continue exactly while `more_available` and a
next cursor are supplied.  Returns all accepted posts and the number of
pages requested, or the first uncaught exception. -/
def fetchOneRun (cutoff : ℚ) : List ReelsPage → Except PyError (List FetchedPost × ℕ)
  | [] => .ok ([], 0)
  | page :: rest =>
    match parseItems page.items with
    | .error e => .error e
    | .ok posts =>
      let scanned := scanPage cutoff posts
      if scanned.2 then .ok (scanned.1, 1)
      else if page.more_available && !(page.next_max_id.isNone) then
        match fetchOneRun cutoff rest with
        | .error e => .error e
        | .ok r => .ok (scanned.1 ++ r.1, r.2 + 1)
      else .ok (scanned.1, 1)

/-! ### Worker-group reconciliation (`lobstr_fetcher.py` `SquidManager`) -/

/-- A handle or URL, as the character list of the Python string. -/
abbrev Chars := List Char

/-- Python `str.lower()`. -/
def lowerChars (s : Chars) : Chars :=
  s.map Char.toLower

/-- Python `value.rstrip("/")`. -/
def rstripSlashes (s : Chars) : Chars :=
  (s.reverse.dropWhile (fun c => c = '/')).reverse

/-- Python `value.split("/")`. -/
def splitSlash : Chars → List Chars
  | [] => [[]]
  | c :: cs =>
    match splitSlash cs with
    | [] => []
    | g :: gs => if c = '/' then [] :: g :: gs else (c :: g) :: gs

/-- Python `[p for p in value.rstrip("/").split("/") if p]`. -/
def pathParts (s : Chars) : List Chars :=
  (splitSlash (rstripSlashes s)).filter (fun p => !p.isEmpty)

/-- One task of the worker group: the stored `params.url` and the remote
task id (`task["id"]`). -/
structure LobstrTask where
  url : Chars
  id : String
deriving DecidableEq, Repr

/-- The handle a task is indexed under: `parts[-1].lower()` when the url
has any non-empty path part, as in the loop building `existing`. -/
def taskHandle (t : LobstrTask) : Option Chars :=
  ((pathParts t.url).getLast?).map lowerChars

/-- Python dict assignment `d[k] = v`: replace in place, else append. -/
def dictInsert (m : List (Chars × String)) (k : Chars) (v : String) :
    List (Chars × String) :=
  if m.any (fun kv => decide (kv.1 = k)) then
    m.map (fun kv => if kv.1 = k then (k, v) else kv)
  else m ++ [(k, v)]

/-- The loop of `ensure_tasks` building `existing : username → task id`. -/
def buildExisting (acc : List (Chars × String)) : List LobstrTask → List (Chars × String)
  | [] => acc
  | t :: ts =>
    match taskHandle t with
    | some h => buildExisting (dictInsert acc h t.id) ts
    | none => buildExisting acc ts

/-- Python `f"https://www.instagram.com/{u}/"`. -/
def mkProfileUrl (u : Chars) : Chars :=
  "https://www.instagram.com/".toList ++ u ++ ['/']

/-- What one `ensure_tasks` call asks the remote API to do. -/
structure EnsureTasksResult where
  removed : List String
  added : List Chars
deriving DecidableEq, Repr

/-- Embeds `SquidManager.ensure_tasks` (lobstr_fetcher.py lines 323-361):
build the `existing` index, delete the task of every indexed handle not in
`target`, and add one profile URL per requested username whose lowercased
form is not an indexed handle. -/
def ensureTasks (tasks : List LobstrTask) (usernames : List Chars) : EnsureTasksResult :=
  let existing := buildExisting [] tasks
  let target := usernames.map lowerChars
  let to_delete := existing.filter (fun kv => decide (kv.1 ∉ target))
  let removed := to_delete.map (fun kv => kv.2)
  let added :=
    (usernames.filter (fun u => decide (lowerChars u ∉ existing.map (fun kv => kv.1)))).map
      mkProfileUrl
  { removed := removed, added := added }

/-! ### Scheduler (`app/services/scheduler.py`) -/

/-- Embeds the `Scheduler` constructor arguments the loop reads. -/
structure SchedulerCfg where
  monitoring_interval_minutes : ℕ
  skip_night_time : Bool
deriving DecidableEq, Repr

/-- Embeds `Scheduler.is_within_working_hours`: `time(8, 0) <= date.time()`,
with the time of day in minutes since local midnight. -/
def isWithinWorkingHours (timeOfDayMinutes : ℕ) : Bool :=
  decide (8 * 60 ≤ timeOfDayMinutes)

/-- What one loop iteration records. -/
inductive CycleEvent
  | ran (caughtError : Option String)
  | skippedNight
deriving DecidableEq, Repr

/-- Embeds the `try/except Exception` around `monitor_cycle()` and
`send_pending_alerts()`: an `ok` cycle is logged as such; any raised
exception is caught and logged, never re-raised. -/
def runningCycle (outcome : Except String Unit) : Option String :=
  match outcome with
  | .ok _ => none
  | .error e => some e

/-- One iteration of `Scheduler.start`'s `while` body: gate on the
operating-hours check (or `skip_night_time` off), run the guarded cycle,
else skip.  The `Except` return makes explicit where an uncaught exception
would escape the iteration — the proofs show this never happens. -/
def schedulerStep (cfg : SchedulerCfg) (nowMinutes : ℕ)
    (outcome : Except String Unit) : Except String CycleEvent :=
  if isWithinWorkingHours nowMinutes || !cfg.skip_night_time then
    .ok (.ran (runningCycle outcome))
  else
    .ok .skippedNight

/-- The scheduler loop over a finite trace of wake-ups, each with its local
wall-clock time and the cycle's outcome.  An `.error` escaping an iteration
would terminate the loop with that exception (second component). -/
def schedulerLoop (cfg : SchedulerCfg) :
    List (ℕ × Except String Unit) → List CycleEvent × Option String
  | [] => ([], none)
  | (now, oc) :: rest =>
    match schedulerStep cfg now oc with
    | .error e => ([], some e)
    | .ok ev =>
      let r := schedulerLoop cfg rest
      (ev :: r.1, r.2)

/-! ## Theorems -/

/-- The embedded iteration never lets an exception escape: the
`try/except Exception` inside the `Running` branch catches everything the
cycle raises, and the night-time branch raises nothing. -/
theorem schedulerStep_ok (cfg : SchedulerCfg) (now : ℕ) (oc : Except String Unit) :
    ∃ ev, schedulerStep cfg now oc = Except.ok ev := by
  unfold schedulerStep
  split
  · exact ⟨_, rfl⟩
  · exact ⟨_, rfl⟩

/-- C9: every exception raised while a cycle is in the `Running` state (the
orchestrator pass and the alert hand-off) is caught inside the loop
iteration, and the loop proceeds to the sleep and the next iteration: over
any finite trace of wake-ups with arbitrary cycle outcomes, the loop never
terminates on an exception and performs exactly one iteration per wake-up. -/
theorem scheduler_contains_cycle_errors (cfg : SchedulerCfg)
    (wakes : List (ℕ × Except String Unit)) :
    (schedulerLoop cfg wakes).2 = none ∧
      (schedulerLoop cfg wakes).1.length = wakes.length := by
  induction wakes with
  | nil => exact ⟨rfl, rfl⟩
  | cons w rest ih =>
    obtain ⟨now, oc⟩ := w
    obtain ⟨ev, hev⟩ := schedulerStep_ok cfg now oc
    simp only [schedulerLoop, hev]
    exact ⟨ih.1, by simp [ih.2]⟩

/-- C4 counterexample: in the job-polling variant the whole account loop is
inside one `try`, so the failing fetch of the first account means the
second account is never attempted and its callback never runs; the claim's
"every account has been attempted" is false for this variant. -/
theorem apify_failure_aborts_remaining :
    "b" ∉ apifyAttempted
        [{ account := "a", result := none }, { account := "b", result := some [] }] ∧
      apifyProcessAccounts
        [{ account := "a", result := none }, { account := "b", result := some [] }] = [] := by
  decide

/-- C4 (amended): in the cursor-paginated variant and in the worker-group
variant's per-account dispatch, a failing account changes nothing for the
other accounts (its removal from the trace leaves their processing
identical), and every account is attempted; in the job-polling variant a
fetch failure is still contained (the function returns), but the remaining
accounts are skipped. -/
theorem fetcher_failure_isolation (xs ys : List AccountFetch) (a : AccountFetch)
    (hfail : a.result = none) :
    scProcessAccounts (xs ++ a :: ys) = scProcessAccounts (xs ++ ys) ∧
      lobstrDispatchAll (xs ++ a :: ys) = lobstrDispatchAll (xs ++ ys) ∧
      scAttempted (xs ++ a :: ys) = scAttempted xs ++ a.account :: scAttempted ys := by
  refine ⟨?_, ?_, ?_⟩ <;>
    simp [scProcessAccounts, lobstrDispatchAll, scAttempted, hfail]

/-- Witness for the amended C4 theorem at a concrete three-account trace
whose middle account fails. -/
theorem fetcher_failure_isolation_witness :
    scProcessAccounts
        ([⟨"a", some [] ⟩] ++ ⟨"b", none⟩ :: [⟨"c", some []⟩]) =
      scProcessAccounts ([⟨"a", some []⟩] ++ [⟨"c", some []⟩]) ∧
    lobstrDispatchAll
        ([⟨"a", some []⟩] ++ ⟨"b", none⟩ :: [⟨"c", some []⟩]) =
      lobstrDispatchAll ([⟨"a", some []⟩] ++ [⟨"c", some []⟩]) ∧
    scAttempted ([⟨"a", some []⟩] ++ ⟨"b", none⟩ :: [⟨"c", some []⟩]) =
      scAttempted [⟨"a", some []⟩] ++ "b" :: scAttempted [⟨"c", some []⟩] :=
  fetcher_failure_isolation [⟨"a", some []⟩] [⟨"c", some []⟩] ⟨"b", none⟩ rfl

/-- C6: evaluation of the cursor-paginated fetcher at the spec's example
shape (a page of two fresh items and one stale one, cutoff at time 0, more
pages available).  The claimed accept/stop rule would keep the two fresh
items and request no second page; instead the fetch raises `NameError` on
the first coded item, because `_media_to_fetched_post` uses `ContentType`
(line 156) which scrape_creators_fetcher.py never imports or defines — a
coded item always raises, a codeless item is dropped before that line, so
the accept/stop logic can never run on any parsed post. -/
theorem fetch_one_name_error :
    fetchOneRun 0
      [ReelsPage.mk
        [ScMedia.mk (some "c1") none (some 100) none (some 5) (some 3600) (some 2) none,
         ScMedia.mk (some "c2") none (some 80) none (some 4) (some 1800) (some 2) none,
         ScMedia.mk (some "c3") none (some 50) none (some 2) (some (-100)) (some 2) none]
        true (some "cursor")] = .error .nameError ∧
    mediaToFetchedPost
      (ScMedia.mk (some "c1") none (some 100) none (some 5) (some 3600) (some 2) none) =
      .error .nameError ∧
    mediaToFetchedPost (ScMedia.mk none none (some 100) none (some 5) (some 3600)
      (some 2) none) = .ok none :=
  ⟨rfl, rfl, rfl⟩

/-- C5: evaluation of the orchestrator's get-or-create at both kinds of
input.  When a Content row with the code exists it is returned unchanged
and no row is inserted; but on the create path the call raises `TypeError`
(`PostRepository.create` has no `post_type` parameter, yet
`_get_or_create_post` passes one), so the row the spec promises is never
created. -/
theorem get_or_create_post_eval :
    getOrCreatePost [{ id := 1, account_id := 1, post_code := "C0", url := none,
                       published_at := 0 }] 2 1
        { post_code := some "C0", url := none, views := 10, likes := 5,
          published_at := 0, post_type := .reel } "C0" =
      .ok ({ id := 1, account_id := 1, post_code := "C0", url := none, published_at := 0 },
        [{ id := 1, account_id := 1, post_code := "C0", url := none, published_at := 0 }]) ∧
    getOrCreatePost [] 1 1
        { post_code := some "C0", url := none, views := 10, likes := 5,
          published_at := 0, post_type := .reel } "C0" =
      .error .typeError :=
  ⟨rfl, rfl⟩

/-- Evaluation of `_calculate_current_speed` on a list whose reversal starts with `curr`
and `prev`: the two-snapshot delta rule when applicable, else the fallback
over `age`. -/
theorem calculateCurrentSpeed_two (ss : List SnapshotData) (age : ℚ)
    (curr prev : SnapshotData) (r : List SnapshotData)
    (h : ss.reverse = curr :: prev :: r) :
    calculateCurrentSpeed ss age =
      if 0 < hoursBetween prev.checked_at curr.checked_at ∧ 0 ≤ curr.views - prev.views then
        ((curr.views - prev.views : ℤ) : ℚ) / hoursBetween prev.checked_at curr.checked_at
      else if 0 < age then (curr.views : ℚ) / age else 0 := by
  by_cases hc :
      0 < hoursBetween prev.checked_at curr.checked_at ∧ 0 ≤ curr.views - prev.views
  · simp only [calculateCurrentSpeed, h, if_pos hc]
  · simp only [calculateCurrentSpeed, h, if_neg hc]

/-- Evaluation of `_calculate_current_speed` on a single-snapshot list: the fallback over
`age`. -/
theorem calculateCurrentSpeed_one (ss : List SnapshotData) (age : ℚ)
    (curr : SnapshotData) (h : ss.reverse = [curr]) :
    calculateCurrentSpeed ss age =
      if 0 < age then (curr.views : ℚ) / age else 0 := by
  simp only [calculateCurrentSpeed, h]

/-- C2: for every non-empty snapshot list, with `curr` the latest snapshot
after the time sort, the analyzer's velocity is Δviews/Δhours from the last
two snapshots when there are at least two, Δhours > 0 and Δviews ≥ 0; in
every other case (one snapshot, no elapsed time between the last two, or a
views decrease) it is the publish-time fallback
`latest.views / hoursSincePublish` when that is positive, else 0; and it is
never negative when the latest view count is non-negative. -/
theorem analyzer_velocity (cfg : TrendConfig) (pid : ℤ) (pub : ℚ)
    (snaps : List SnapshotData) (avg : ℚ) (curr : SnapshotData) (rest : List SnapshotData)
    (h : (sortSnapshots snaps).reverse = curr :: rest) :
    (∀ prev r, rest = prev :: r →
      (analyzePost cfg pid pub snaps avg).views_per_hour =
        if 0 < hoursBetween prev.checked_at curr.checked_at ∧
            0 ≤ curr.views - prev.views then
          ((curr.views - prev.views : ℤ) : ℚ) / hoursBetween prev.checked_at curr.checked_at
        else fallbackSpeed pub curr) ∧
    (rest = [] →
      (analyzePost cfg pid pub snaps avg).views_per_hour = fallbackSpeed pub curr) ∧
    (0 ≤ curr.views → 0 ≤ (analyzePost cfg pid pub snaps avg).views_per_hour) := by
  have hne : snaps ≠ [] := by
    intro hnil
    rw [hnil] at h
    simp [sortSnapshots] at h
  have hpost : analyzePost cfg pid pub snaps avg =
      analyzeSorted cfg pid pub (sortSnapshots snaps) avg := by
    cases snaps with
    | nil => exact absurd rfl hne
    | cons a l => simp [analyzePost]
  have hvph : (analyzePost cfg pid pub snaps avg).views_per_hour =
      calculateCurrentSpeed (sortSnapshots snaps) (hoursBetween pub curr.checked_at) := by
    rw [hpost]
    unfold analyzeSorted
    rw [h]
  have hfall : (if 0 < hoursBetween pub curr.checked_at then
      (curr.views : ℚ) / hoursBetween pub curr.checked_at else 0) = fallbackSpeed pub curr :=
    rfl
  have hfall_nonneg : 0 ≤ curr.views → 0 ≤ fallbackSpeed pub curr := by
    intro hv
    unfold fallbackSpeed
    split
    · exact div_nonneg (by exact_mod_cast hv) (le_of_lt (by assumption))
    · exact le_refl 0
  refine ⟨?_, ?_, ?_⟩
  · intro prev r hr
    rw [hr] at h
    rw [hvph, calculateCurrentSpeed_two (sortSnapshots snaps) _ curr prev r h]
    by_cases hc :
        0 < hoursBetween prev.checked_at curr.checked_at ∧ 0 ≤ curr.views - prev.views
    · rw [if_pos hc, if_pos hc]
    · rw [if_neg hc, if_neg hc, hfall]
  · intro hr
    rw [hr] at h
    rw [hvph, calculateCurrentSpeed_one (sortSnapshots snaps) _ curr h, hfall]
  · intro hv
    rw [hvph]
    cases rest with
    | nil =>
      rw [calculateCurrentSpeed_one (sortSnapshots snaps) _ curr h, hfall]
      exact hfall_nonneg hv
    | cons prev r =>
      rw [calculateCurrentSpeed_two (sortSnapshots snaps) _ curr prev r h]
      by_cases hc :
          0 < hoursBetween prev.checked_at curr.checked_at ∧ 0 ≤ curr.views - prev.views
      · rw [if_pos hc]
        exact div_nonneg (by exact_mod_cast hc.2) (le_of_lt hc.1)
      · rw [if_neg hc, hfall]
        exact hfall_nonneg hv

/-- Witness for C2 at the spec's decrease example: snapshots 1500 → 1000
over the hour from 4h to 5h after publish; the delta is negative, so the
velocity is the publish-age fallback 1000/5 = 200, not a negative rate. -/
theorem analyzer_velocity_witness :
    (analyzePost (TrendConfig.mk 150 24 2) 1 0
      [SnapshotData.mk 1500 14400, SnapshotData.mk 1000 18000] 0).views_per_hour = 200 := by
  have h := ((analyzer_velocity (TrendConfig.mk 150 24 2) 1 0
    [SnapshotData.mk 1500 14400, SnapshotData.mk 1000 18000] 0
    (SnapshotData.mk 1000 18000) [SnapshotData.mk 1500 14400]
    (by norm_num [sortSnapshots])).1 (SnapshotData.mk 1500 14400) [] rfl)
  rw [h]
  norm_num [hoursBetween, fallbackSpeed]

/-- C3 counterexample: with a zero (or negative) growth threshold the
verdict can be true even though the baseline is 0 — growth is 0 and
`0 ≥ threshold` holds — so "never trending when the baseline is zero, for
every configuration" is false; and on an empty snapshot list with baseline
5 the growth is 0, not the claimed `(velocity − baseline)/baseline·100 =
−100`, so "for every analysis call" is also too strong. -/
theorem analyzer_growth_cex :
    (analyzePost (TrendConfig.mk 0 24 1) 1 0 [SnapshotData.mk 100 3600] 0).is_trending
      = true ∧
    (analyzePost (TrendConfig.mk 150 24 2) 1 0 [] 5).growth_rate ≠
      ((analyzePost (TrendConfig.mk 150 24 2) 1 0 [] 5).views_per_hour - 5) / 5 * 100 := by
  constructor
  · norm_num [analyzePost, sortSnapshots, analyzeSorted, calculateCurrentSpeed,
      calculateGrowth, isTrending, hoursBetween, emptyResult]
  · norm_num [analyzePost, emptyResult]

/-- C3 (amended): for every analysis call with a non-empty snapshot list
the growth percentage is `(velocity − baseline)/baseline · 100` when the
baseline is positive and `0` otherwise; and whenever the baseline is zero
or negative, the trending verdict is false for every configuration whose
growth threshold is positive (an empty snapshot list also yields growth 0
and a false verdict). -/
theorem analyzer_growth (cfg : TrendConfig) (pid : ℤ) (pub : ℚ)
    (snaps : List SnapshotData) (avg : ℚ) :
    (snaps ≠ [] →
      (analyzePost cfg pid pub snaps avg).growth_rate =
        if 0 < avg then
          ((analyzePost cfg pid pub snaps avg).views_per_hour - avg) / avg * 100
        else 0) ∧
    (avg ≤ 0 → 0 < cfg.growth_threshold_percent →
      (analyzePost cfg pid pub snaps avg).is_trending = false) := by
  cases snaps with
  | nil =>
    refine ⟨fun hne => absurd rfl hne, fun _ _ => ?_⟩
    simp [analyzePost, emptyResult]
  | cons a l =>
    have hpost : analyzePost cfg pid pub (a :: l) avg =
        analyzeSorted cfg pid pub (sortSnapshots (a :: l)) avg := by
      simp [analyzePost]
    have hrev : ∃ curr rest, (sortSnapshots (a :: l)).reverse = curr :: rest := by
      have hlen : (sortSnapshots (a :: l)).length = (a :: l).length :=
        (List.perm_insertionSort _ (a :: l)).length_eq
      cases hr : (sortSnapshots (a :: l)).reverse with
      | nil =>
        have hnil : sortSnapshots (a :: l) = [] := by
          have := congrArg List.reverse hr
          simpa using this
        rw [hnil] at hlen
        simp at hlen
      | cons c r => exact ⟨c, r, rfl⟩
    obtain ⟨curr, rest, hr⟩ := hrev
    have hgr : (analyzePost cfg pid pub (a :: l) avg).growth_rate =
        calculateGrowth ((analyzePost cfg pid pub (a :: l) avg).views_per_hour) avg := by
      rw [hpost]
      unfold analyzeSorted
      rw [hr]
    have htr : (analyzePost cfg pid pub (a :: l) avg).is_trending =
        isTrending cfg ((analyzePost cfg pid pub (a :: l) avg).growth_rate)
          (hoursBetween pub curr.checked_at) (sortSnapshots (a :: l)).length := by
      rw [hpost]
      unfold analyzeSorted
      rw [hr]
    constructor
    · intro _
      rw [hgr]
      unfold calculateGrowth
      rcases le_or_lt avg 0 with hle | hlt
      · rw [if_pos hle, if_neg (not_lt.mpr hle)]
      · rw [if_neg (not_le.mpr hlt), if_pos hlt]
    · intro hle hthr
      have hg0 : (analyzePost cfg pid pub (a :: l) avg).growth_rate = 0 := by
        rw [hgr]
        unfold calculateGrowth
        rw [if_pos hle]
      rw [htr, hg0]
      unfold isTrending
      rw [decide_eq_false (not_le.mpr hthr)]
      simp

/-- Witness for the amended C3 theorem: single snapshot of 100 views one
hour after publish, baseline 0, spec threshold configuration — growth is 0
and the verdict is false. -/
theorem analyzer_growth_witness :
    (analyzePost (TrendConfig.mk 150 24 2) 1 0 [SnapshotData.mk 100 3600] 0).growth_rate
      = 0 ∧
    (analyzePost (TrendConfig.mk 150 24 2) 1 0 [SnapshotData.mk 100 3600] 0).is_trending
      = false := by
  have h := analyzer_growth (TrendConfig.mk 150 24 2) 1 0 [SnapshotData.mk 100 3600] 0
  refine ⟨(h.1 (by simp)).trans ?_, h.2 (by norm_num) (by norm_num)⟩
  norm_num

/-- Holds that `alertExists st u p = false` exactly when no stored alert carries the
pair. -/
theorem alertExists_eq_false (st : AlertStore) (u : String) (p : ℤ) :
    alertExists st u p = false ↔ ∀ a ∈ st, ¬(a.user_id = u ∧ a.post_id = p) := by
  simp [alertExists]

/-- One `_create_alerts_for_account_users` call preserves the
one-alert-per-pair invariant and only appends new rows: the prior rows
survive verbatim, metrics untouched. -/
theorem createAlerts_preserves (tr : PostTrendResult) (users : List String) :
    ∀ st : AlertStore, UniqueAlertPairs st →
      UniqueAlertPairs (createAlertsForAccountUsers st users tr) ∧
        ∃ new, createAlertsForAccountUsers st users tr = st ++ new := by
  induction users with
  | nil =>
    intro st h
    exact ⟨h, [], by simp [createAlertsForAccountUsers]⟩
  | cons u us ih =>
    intro st h
    have hstep : createAlertsForAccountUsers st (u :: us) tr =
        createAlertsForAccountUsers
          (if alertExists st u tr.post_id then st
           else alertRepoCreate st u tr.post_id tr.current_views tr.views_per_hour
             tr.avg_views_per_hour tr.growth_rate) us tr := rfl
    by_cases hex : alertExists st u tr.post_id
    · rw [hstep, if_pos hex]
      exact ih st h
    · have hexf : alertExists st u tr.post_id = false := by
        simpa using hex
      have hfresh : ∀ a ∈ st, ¬(a.user_id = u ∧ a.post_id = tr.post_id) :=
        (alertExists_eq_false st u tr.post_id).mp hexf
      have hu : UniqueAlertPairs (alertRepoCreate st u tr.post_id tr.current_views
          tr.views_per_hour tr.avg_views_per_hour tr.growth_rate) := by
        unfold UniqueAlertPairs alertRepoCreate
        rw [List.pairwise_append]
        refine ⟨h, by simp, ?_⟩
        intro a ha b hb
        simp only [List.mem_singleton] at hb
        subst hb
        exact hfresh a ha
      obtain ⟨hres, new, hnew⟩ := ih _ hu
      rw [hstep, if_neg hex]
      refine ⟨hres, AlertRec.mk u tr.post_id tr.current_views tr.views_per_hour
        tr.avg_views_per_hour tr.growth_rate :: new, ?_⟩
      rw [hnew]
      simp [alertRepoCreate]

/-- C1: starting from any alerts table satisfying the
one-alert-per-(subscriber, content) invariant, any number of passes whose
trending condition re-fires arbitrarily often preserves the invariant, and
every pre-existing Alert row is left in place unchanged (the table only
grows at the end — no duplicate row, no metric update). -/
theorem alert_pair_unique (st : AlertStore)
    (passes : List (List String × PostTrendResult)) (h : UniqueAlertPairs st) :
    UniqueAlertPairs (runAlertPasses st passes) ∧
      ∃ new, runAlertPasses st passes = st ++ new := by
  induction passes generalizing st with
  | nil => exact ⟨h, [], by simp [runAlertPasses]⟩
  | cons p ps ih =>
    have hstep : runAlertPasses st (p :: ps) =
        runAlertPasses (createAlertsForAccountUsers st p.1 p.2) ps := rfl
    obtain ⟨h1, new1, he1⟩ := createAlerts_preserves p.2 p.1 st h
    obtain ⟨h2, new2, he2⟩ := ih _ h1
    refine ⟨by rw [hstep]; exact h2, new1 ++ new2, ?_⟩
    rw [hstep, he2, he1, List.append_assoc]

/-- Witness for C1: two identical passes re-firing the same trend result
for two subscribers of the account, starting from an empty table. -/
theorem alert_pair_unique_witness :
    UniqueAlertPairs (runAlertPasses []
      [(["u1", "u2"], PostTrendResult.mk 7 1000 300 100 200 true),
       (["u1", "u2"], PostTrendResult.mk 7 1000 300 100 200 true)]) ∧
      ∃ new, runAlertPasses []
        [(["u1", "u2"], PostTrendResult.mk 7 1000 300 100 200 true),
         (["u1", "u2"], PostTrendResult.mk 7 1000 300 100 200 true)] = [] ++ new :=
  alert_pair_unique []
    [(["u1", "u2"], PostTrendResult.mk 7 1000 300 100 200 true),
     (["u1", "u2"], PostTrendResult.mk 7 1000 300 100 200 true)]
    List.Pairwise.nil

/-- C8 counterexample: `ApifyFetcher._map_posts` neither drops an item with
a missing code nor derives reel views from the like count — the codeless
item below survives with `post_code = none` and views 0 despite 5 likes. -/
theorem map_posts_keeps_codeless_items :
    mapPosts [ApifyItem.mk none none none none (some 5) none none none (some 0) none
        false none none] "reels" =
      [FetchedPost.mk none none 0 5 0 ContentType.reel] ∧
    (mapPosts [ApifyItem.mk none none none none (some 5) none none none (some 0) none
        false none none] "reels").length = 1 :=
  ⟨rfl, rfl⟩

/-- C8 (amended), about the legacy job-polling mapping `_parse_apify_item`:
an item is dropped exactly when both `id` and `shortCode` are falsy; a kept
item's view count is the first truthy entry of the
`videoViewCount`/`videoPlayCount`/`playsCount` chain and otherwise the like
count times the fixed multiplier 10 (clamped at 0, so never negative); and
a dropped item leaves the rest of the batch intact. -/
theorem legacy_item_mapping (item : ApifyItem) (username : String) (now : ℚ) :
    (parseApifyItem item username now = none ↔
      strTruthy (pyOrStr item.idField item.shortCode) = false) ∧
    (∀ p, parseApifyItem item username now = some p →
      p.views = max (legacyViewsChain item
        (if item.likesCount.getD 0 < 0 then 0 else item.likesCount.getD 0)) 0 ∧
      0 ≤ p.views) ∧
    (∀ xs ys, parseApifyItem item username now = none →
      parseApifyBatch (xs ++ item :: ys) username now =
        parseApifyBatch xs username now ++ parseApifyBatch ys username now) := by
  refine ⟨?_, ?_, ?_⟩
  · cases hpid : pyOrStr item.idField item.shortCode with
    | none => simp [parseApifyItem, hpid, strTruthy]
    | some pid =>
      by_cases hemp : pid.isEmpty
      · simp [parseApifyItem, hpid, hemp, strTruthy]
      · simp [parseApifyItem, hpid, hemp, strTruthy]
  · intro p hp
    cases hpid : pyOrStr item.idField item.shortCode with
    | none =>
      simp only [parseApifyItem, hpid] at hp
      cases hp
    | some pid =>
      simp only [parseApifyItem, hpid] at hp
      by_cases hemp : pid.isEmpty
      · rw [if_pos hemp] at hp
        cases hp
      · rw [if_neg hemp] at hp
        have hpv := Option.some.inj hp
        subst hpv
        exact ⟨rfl, le_max_right _ 0⟩
  · intro xs ys hnone
    unfold parseApifyBatch
    rw [List.filterMap_append]
    simp [List.filterMap_cons, hnone]

/-- Witness for the amended C8 theorem: an item with only a code and 5
likes maps to a post with 5 × 10 = 50 views via the multiplier fallback. -/
theorem legacy_item_mapping_witness :
    ∃ p, parseApifyItem (ApifyItem.mk (some "x") none none none (some 5) none none none
        none none false none none) "u" 0 = some p ∧ p.views = 50 := by
  have h := (legacy_item_mapping (ApifyItem.mk (some "x") none none none (some 5) none
    none none none none false none none) "u" 0).2.1
  refine ⟨_, rfl, ?_⟩
  exact (h _ rfl).1.trans (by decide)

instance : IsTotal SnapshotData (fun a b => a.checked_at ≤ b.checked_at) :=
  ⟨fun a b => le_total a.checked_at b.checked_at⟩

instance : IsTrans SnapshotData (fun a b => a.checked_at ≤ b.checked_at) :=
  ⟨fun _ _ _ hab hbc => le_trans hab hbc⟩

instance : IsAntisymm SnapshotData (fun a b => a.checked_at < b.checked_at) :=
  ⟨fun _ _ hab hba => absurd (lt_trans hab hba) (lt_irrefl _)⟩

/-- Two permutations of the same snapshots with pairwise distinct
observation times sort to the same list. -/
theorem sortSnapshots_perm_eq (l₁ l₂ : List SnapshotData) (hperm : l₁.Perm l₂)
    (hdist : l₁.Pairwise (fun a b => a.checked_at ≠ b.checked_at)) :
    sortSnapshots l₁ = sortSnapshots l₂ := by
  have hsym : Symmetric (fun a b : SnapshotData => a.checked_at ≠ b.checked_at) :=
    fun _ _ h => Ne.symm h
  have hp1 : (sortSnapshots l₁).Perm l₁ := List.perm_insertionSort _ l₁
  have hp2 : (sortSnapshots l₂).Perm l₂ := List.perm_insertionSort _ l₂
  have hp : (sortSnapshots l₁).Perm (sortSnapshots l₂) :=
    (hp1.trans hperm).trans hp2.symm
  have hs1 : (sortSnapshots l₁).Sorted (fun a b => a.checked_at ≤ b.checked_at) :=
    List.sorted_insertionSort _ l₁
  have hs2 : (sortSnapshots l₂).Sorted (fun a b => a.checked_at ≤ b.checked_at) :=
    List.sorted_insertionSort _ l₂
  have hd1 : (sortSnapshots l₁).Pairwise (fun a b => a.checked_at ≠ b.checked_at) :=
    (hp1.pairwise_iff fun h => Ne.symm h).mpr hdist
  have hd2 : (sortSnapshots l₂).Pairwise (fun a b => a.checked_at ≠ b.checked_at) :=
    ((hp2.trans hperm.symm).pairwise_iff fun h => Ne.symm h).mpr hdist
  have hlt1 : (sortSnapshots l₁).Sorted (fun a b => a.checked_at < b.checked_at) :=
    (hs1.and hd1).imp fun h => lt_of_le_of_ne h.1 h.2
  have hlt2 : (sortSnapshots l₂).Sorted (fun a b => a.checked_at < b.checked_at) :=
    (hs2.and hd2).imp fun h => lt_of_le_of_ne h.1 h.2
  exact List.eq_of_perm_of_sorted hp hlt1 hlt2

/-- C10: `analyze_post` does not depend on the order of its snapshot
argument — for any two permutations of snapshots with pairwise distinct
observation times the results are equal, because the list is sorted by
observation time internally; the interface's "ordered by time"
precondition is not actually required. -/
theorem analyze_post_order_insensitive (cfg : TrendConfig) (pid : ℤ) (pub : ℚ)
    (avg : ℚ) (l₁ l₂ : List SnapshotData) (hperm : l₁.Perm l₂)
    (hdist : l₁.Pairwise (fun a b => a.checked_at ≠ b.checked_at)) :
    analyzePost cfg pid pub l₁ avg = analyzePost cfg pid pub l₂ avg := by
  have hsorteq : sortSnapshots l₁ = sortSnapshots l₂ :=
    sortSnapshots_perm_eq l₁ l₂ hperm hdist
  have hlen := hperm.length_eq
  have hiff : l₁.isEmpty = l₂.isEmpty := by
    cases l₁ <;> cases l₂ <;> simp_all
  unfold analyzePost
  rw [hiff, hsorteq]

/-- Witness for C10: the two orders of a two-snapshot history with distinct
times give the same analysis result. -/
theorem analyze_post_order_insensitive_witness :
    analyzePost (TrendConfig.mk 150 24 2) 1 0
        [SnapshotData.mk 1000 3600, SnapshotData.mk 1500 7200] 0 =
      analyzePost (TrendConfig.mk 150 24 2) 1 0
        [SnapshotData.mk 1500 7200, SnapshotData.mk 1000 3600] 0 :=
  analyze_post_order_insensitive (TrendConfig.mk 150 24 2) 1 0 0
    [SnapshotData.mk 1000 3600, SnapshotData.mk 1500 7200]
    [SnapshotData.mk 1500 7200, SnapshotData.mk 1000 3600]
    (List.Perm.swap (SnapshotData.mk 1500 7200) (SnapshotData.mk 1000 3600) [])
    (by norm_num [List.pairwise_cons])

/-- C7 counterexample: a duplicated requested handle is added once per
occurrence — with no existing tasks and the handle `d` requested twice,
`ensure_tasks` adds two tasks for the single missing handle, not exactly
one. -/
theorem ensure_tasks_duplicate_adds :
    (ensureTasks [] [['d'], ['d']]).added =
      [mkProfileUrl ['d'], mkProfileUrl ['d']] ∧
    ((ensureTasks [] [['d'], ['d']]).added).length = 2 :=
  ⟨rfl, rfl⟩

/-- When every task yields a handle, the handle index of the task list is
its handle map. -/
theorem filterMap_taskHandle_eq :
    ∀ tasks : List LobstrTask, (∀ t ∈ tasks, (taskHandle t).isSome) →
      tasks.filterMap taskHandle = tasks.map (fun t => (taskHandle t).getD [])
  | [], _ => rfl
  | t :: ts, hh => by
    obtain ⟨h, hht⟩ := Option.isSome_iff_exists.mp (hh t (by simp))
    simp [List.filterMap_cons, hht,
      filterMap_taskHandle_eq ts (fun x hx => hh x (by simp [hx]))]

/-- The `existing` dict built by `ensure_tasks` lists one (handle, id) pair
per task, in task order, when every task yields a handle and handles are
pairwise distinct. -/
theorem buildExisting_eq :
    ∀ (tasks : List LobstrTask) (acc : List (Chars × String)),
      (∀ t ∈ tasks, (taskHandle t).isSome) →
      (acc.map Prod.fst ++ tasks.filterMap taskHandle).Nodup →
      buildExisting acc tasks = acc ++ tasks.map (fun t => ((taskHandle t).getD [], t.id))
  | [], acc, _, _ => by simp [buildExisting]
  | t :: ts, acc, hh, hnd => by
    obtain ⟨h, hht⟩ := Option.isSome_iff_exists.mp (hh t (by simp))
    have hfm : (t :: ts).filterMap taskHandle = h :: ts.filterMap taskHandle := by
      simp [List.filterMap_cons, hht]
    rw [hfm] at hnd
    have hmem : h ∉ acc.map Prod.fst := by
      intro hmemh
      exact (List.nodup_append.mp hnd).2.2 hmemh (by simp)
    have hanyf : acc.any (fun kv => decide (kv.1 = h)) = false := by
      rw [List.any_eq_false]
      intro kv hkv
      simp only [decide_eq_true_eq]
      intro hkh
      exact hmem (hkh ▸ List.mem_map_of_mem Prod.fst hkv)
    have hins : dictInsert acc h t.id = acc ++ [(h, t.id)] := by
      unfold dictInsert
      rw [hanyf]
      simp
    have hnd' : ((acc ++ [(h, t.id)]).map Prod.fst ++ ts.filterMap taskHandle).Nodup := by
      rw [List.map_append]
      simpa [List.append_assoc] using hnd
    calc buildExisting acc (t :: ts)
        = buildExisting (dictInsert acc h t.id) ts := by
          simp only [buildExisting, hht]
      _ = buildExisting (acc ++ [(h, t.id)]) ts := by rw [hins]
      _ = (acc ++ [(h, t.id)]) ++ ts.map (fun t => ((taskHandle t).getD [], t.id)) :=
          buildExisting_eq ts _ (fun x hx => hh x (by simp [hx])) hnd'
      _ = acc ++ (t :: ts).map (fun t => ((taskHandle t).getD [], t.id)) := by
          simp [hht, List.append_assoc]

/-- The profile URL `f"https://www.instagram.com/{u}/"` determines the username. -/
theorem mkProfileUrl_injective : Function.Injective mkProfileUrl := by
  intro a b hab
  unfold mkProfileUrl at hab
  exact List.append_cancel_left (List.append_cancel_right hab)

/-- C7 (amended): when the existing tasks carry pairwise-distinct handles
and the requested handle list is duplicate-free case-insensitively,
`ensure_tasks` removes exactly the tasks whose handle is not requested
(matching tasks stay), and adds exactly one profile URL per requested
handle not yet present. -/
theorem ensure_tasks_reconcile (tasks : List LobstrTask) (usernames : List Chars)
    (hh : ∀ t ∈ tasks, (taskHandle t).isSome)
    (hdist : (tasks.filterMap taskHandle).Nodup)
    (hud : (usernames.map lowerChars).Nodup) :
    (ensureTasks tasks usernames).removed =
      (tasks.filter
        (fun t => decide ((taskHandle t).getD [] ∉ usernames.map lowerChars))).map
        (fun t => t.id) ∧
    (ensureTasks tasks usernames).added =
      (usernames.filter
        (fun u => decide (lowerChars u ∉ tasks.filterMap taskHandle))).map mkProfileUrl ∧
    ((ensureTasks tasks usernames).added).Nodup := by
  have hbe : buildExisting [] tasks =
      tasks.map (fun t => ((taskHandle t).getD [], t.id)) := by
    have hb := buildExisting_eq tasks [] hh (by simpa using hdist)
    simpa using hb
  have hkeys : (buildExisting [] tasks).map (fun kv => kv.1) =
      tasks.filterMap taskHandle := by
    rw [hbe, List.map_map, filterMap_taskHandle_eq tasks hh]
    rfl
  have hrem : (ensureTasks tasks usernames).removed =
      (tasks.filter
        (fun t => decide ((taskHandle t).getD [] ∉ usernames.map lowerChars))).map
        (fun t => t.id) := by
    simp only [ensureTasks]
    rw [hbe, List.filter_map, List.map_map]
    rfl
  have hadd : (ensureTasks tasks usernames).added =
      (usernames.filter
        (fun u => decide (lowerChars u ∉ tasks.filterMap taskHandle))).map mkProfileUrl := by
    simp only [ensureTasks]
    simp only [hkeys]
  refine ⟨hrem, hadd, ?_⟩
  rw [hadd]
  have hsub : List.Sublist
      ((usernames.filter
        (fun u => decide (lowerChars u ∉ tasks.filterMap taskHandle))).map lowerChars)
      (usernames.map lowerChars) :=
    (List.filter_sublist usernames).map lowerChars
  have hndl : ((usernames.filter
      (fun u => decide (lowerChars u ∉ tasks.filterMap taskHandle))).map lowerChars).Nodup :=
    hud.sublist hsub
  exact (List.Nodup.of_map lowerChars hndl).map mkProfileUrl_injective

/-- Witness for the amended C7 theorem at the spec's example: existing
tasks {a, b, c}, requested handles {b, c, d} — exactly one removal (the `a`
task) and one addition (the `d` profile URL). -/
theorem ensure_tasks_reconcile_witness :
    (ensureTasks
      [LobstrTask.mk "https://www.instagram.com/a/".toList "ta",
       LobstrTask.mk "https://www.instagram.com/b/".toList "tb",
       LobstrTask.mk "https://www.instagram.com/c/".toList "tc"]
      ["b".toList, "c".toList, "d".toList]).removed = ["ta"] ∧
    (ensureTasks
      [LobstrTask.mk "https://www.instagram.com/a/".toList "ta",
       LobstrTask.mk "https://www.instagram.com/b/".toList "tb",
       LobstrTask.mk "https://www.instagram.com/c/".toList "tc"]
      ["b".toList, "c".toList, "d".toList]).added =
      ["https://www.instagram.com/d/".toList] := by
  have h := ensure_tasks_reconcile
    [LobstrTask.mk "https://www.instagram.com/a/".toList "ta",
     LobstrTask.mk "https://www.instagram.com/b/".toList "tb",
     LobstrTask.mk "https://www.instagram.com/c/".toList "tc"]
    ["b".toList, "c".toList, "d".toList]
    (by decide) (by decide) (by decide)
  exact ⟨h.1.trans (by decide), h.2.1.trans (by decide)⟩

end InstagramParser
